import Mathlib

/-! Verification of the rcaptcha server against its specification.

Shallow embedding of the TypeScript sources:
- `server/src/challenges/coherent.ts` (challenge generation and the
  verification pipeline),
- `server/src/rateLimit.ts` (token-bucket rate limiter),
- `server/src/sessions.ts` (multi-block auth sessions) and the token
  module (`createToken` / `validateToken`),
- the `/auth/submit` handler of `server.ts` (`createServer`).

Modelling conventions:
- JavaScript `number` timestamps and durations become `Int` (millisecond
  values; every operation involved is exact integer arithmetic).
- The fractional token-bucket arithmetic becomes `ℚ` (the operations are
  embedded exactly as written in the source).
- Randomness (`crypto.getRandomValues`, `Math.random`) is passed in as
  explicit parameters: sort-key functions for the shuffles, a byte for the
  word count, generated identifier strings.
- The external coherence oracle (an HTTPS call to OpenAI) is passed in as
  an explicit `OracleOutcome` value.
- JavaScript `Map` stores become association lists whose keys are
  pairwise distinct; `Map.set` replaces the binding of an existing key.
- String handling is done on `List Char` (`String.data`); JavaScript
  `toLowerCase` is embedded by `Char.toLower`, which is exact on the ASCII
  range the word pools and patterns use.
-/

namespace RCaptcha

/-- Characters matched by the JavaScript regexp class `\s` (also the set
removed by `String.prototype.trim`): ASCII whitespace, NBSP, and the
Unicode space separators. -/
def isJsWhitespace (c : Char) : Bool :=
  c = ' ' || c = '\t' || c = '\n' || c = '\r' ||
  c = '\x0b' || c = '\x0c' || c = '\u00a0' ||
  c = '\u1680' || ('\u2000' ≤ c && c ≤ '\u200a') ||
  c = '\u2028' || c = '\u2029' || c = '\u202f' || c = '\u205f' ||
  c = '\u3000' || c = '\ufeff'

/-- JavaScript `String.prototype.trim` on a character list: strip leading
and trailing whitespace. -/
def jsTrimL (l : List Char) : List Char :=
  ((l.dropWhile isJsWhitespace).reverse.dropWhile isJsWhitespace).reverse

/-- JavaScript `String.prototype.trim`. -/
def jsTrim (s : String) : String :=
  String.mk (jsTrimL s.data)

/-- A regexp word character (`\w`): ASCII letters, digits, underscore. -/
def isWordChar (c : Char) : Bool :=
  c.isAlphanum || c = '_'

/-- Match the word `w` against the beginning of `s`; on success return
the remaining suffix of `s`. -/
def matchWord : List Char → List Char → Option (List Char)
  | [], s => some s
  | _ :: _, [] => none
  | c :: w, d :: s => if c = d then matchWord w s else none

/-- Right word boundary (`\b`) after a matched word that ends in a word
character: end of string, or the next character is not a word character. -/
def rightBoundary : List Char → Bool
  | [] => true
  | c :: _ => !isWordChar c

/-- Left word boundary (`\b`) before a word that starts with a word
character: start of string (`prev = none`), or the preceding character is
not a word character. -/
def leftBoundary : Option Char → Bool
  | none => true
  | some c => !isWordChar c

/-- Does `w` occur at the start of `s` with a right word boundary after
it? -/
def testAt (w s : List Char) : Bool :=
  match matchWord w s with
  | none => false
  | some rest => rightBoundary rest

/-- Scan `s` for an occurrence of `w` delimited by word boundaries, where
`prev` is the character preceding the current position.  This embeds
`new RegExp('\\b' + word + '\\b').test(sentence)` for the pool words,
which are nonempty and consist only of word characters (so the word
carries no regexp metacharacters and both `\b` anchors reduce to the
neighbouring character not being a word character). -/
def findWholeWord (w : List Char) : Option Char → List Char → Bool
  | prev, [] => leftBoundary prev && testAt w []
  | prev, c :: s => (leftBoundary prev && testAt w (c :: s)) || findWholeWord w (some c) s

/-- Result record of `containsAllWords`. -/
structure WordCheckResult where
  valid : Bool
  missing : List String
deriving DecidableEq, Repr

/-- coherent.ts `containsAllWords`: lowercase the sentence, then test each
required word (lowercased) as a whole-word match; the words that fail are
collected, in order, into `missing`; `valid` iff `missing` is empty. -/
def containsAllWords (sentence : String) (words : List String) : WordCheckResult :=
  let lowerSentence := sentence.data.map Char.toLower
  let missing := words.filter
    (fun w => !(findWholeWord (w.data.map Char.toLower) none lowerSentence))
  { valid := missing.isEmpty, missing := missing }

/-- coherent.ts `countWords`:
`sentence.trim().split(/\s+/).filter(w => w.length > 0).length`, i.e. the
number of maximal whitespace-free fragments. -/
def countWords (sentence : String) : Nat :=
  (((jsTrimL sentence.data).splitOnP isJsWhitespace).filter
    (fun w => w.length > 0)).length

/-- Result record of `basicGrammarCheck`. -/
structure GrammarCheckResult where
  valid : Bool
  error : Option String
deriving DecidableEq, Repr

/-- coherent.ts `basicGrammarCheck`: the trimmed sentence must be
nonempty, start with an ASCII capital letter (`/^[A-Z]/`), and end with
`.`, `!` or `?` (`/[.!?]$/`). -/
def basicGrammarCheck (sentence : String) : GrammarCheckResult :=
  let trimmed := jsTrimL sentence.data
  if trimmed.length = 0 then
    { valid := false, error := some "Empty sentence" }
  else if !(trimmed.head?.elim false (fun c => 'A' ≤ c && c ≤ 'Z')) then
    { valid := false, error := some "Sentence should start with a capital letter" }
  else if !(trimmed.getLast?.elim false (fun c => c = '.' || c = '!' || c = '?')) then
    { valid := false, error := some "Sentence should end with punctuation (.!?)" }
  else
    { valid := true, error := none }

/-- Outcome of the external gpt-4o-mini request made by `checkCoherence`:
the environment may have no API key, the `fetch` may throw, the response
may be non-ok, or it delivers the (possibly absent) message content. -/
inductive OracleOutcome where
  | noApiKey
  | requestFailed
  | responseNotOk
  | reply (content : Option String)
deriving DecidableEq, Repr

/-- JavaScript `parseInt(x, 10)`: skip leading whitespace, an optional
sign, then read the longest digit prefix; `none` models `NaN`. -/
def parseIntJS (s : String) : Option Int :=
  let l := s.data.dropWhile isJsWhitespace
  let signed : Int × List Char :=
    match l with
    | '-' :: r => (-1, r)
    | '+' :: r => (1, r)
    | r => (1, r)
  let digits := signed.2.takeWhile Char.isDigit
  if digits.isEmpty then none
  else some (signed.1 * ((digits.foldl (fun n c => n * 10 + (c.toNat - '0'.toNat)) 0 : Nat) : Int))

/-- Result record of `checkCoherence`. -/
structure CoherenceResult where
  score : Int
  error : Option String
deriving DecidableEq, Repr

/-- coherent.ts `checkCoherence`: ask the oracle for a 1-10 score; with a
missing API key, a failed request, a non-ok response, or a reply that does
not parse to an integer in 1..10, fall back to the fixed passing score 7. -/
def checkCoherence (o : OracleOutcome) : CoherenceResult :=
  match o with
  | .noApiKey => { score := 7, error := none }
  | .requestFailed => { score := 7, error := some "Check failed, defaulting to pass" }
  | .responseNotOk => { score := 7, error := some "API error, defaulting to pass" }
  | .reply content =>
    let c := (content.map jsTrim).getD ""
    match parseIntJS c with
    | none => { score := 7, error := none }
    | some n =>
      if n < 1 || n > 10 then { score := 7, error := none }
      else { score := n, error := none }

/-- coherent.ts `MAX_SENTENCE_LENGTH`. -/
def MAX_SENTENCE_LENGTH : Nat := 10000

/-- coherent.ts `CoherentChallenge`. -/
structure CoherentChallenge where
  words : List String
  wordCount : Nat
  timeoutMs : Int
deriving DecidableEq, Repr

/-- coherent.ts `CoherentAnswer`. -/
structure CoherentAnswer where
  sentence : String
deriving DecidableEq, Repr

/-- coherent.ts `CoherentVerifyResult`. -/
structure CoherentVerifyResult where
  valid : Bool
  errors : List String
  coherenceScore : Option Int
deriving DecidableEq, Repr

/-- The message `Missing words: ...` pushed by check 2. -/
def missingWordsMsg (missing : List String) : String :=
  "Missing words: " ++ String.intercalate ", " missing

/-- The message `Word count: expected ..., got ...` pushed by check 3. -/
def wordCountMsg (expected actual : Nat) : String :=
  "Word count: expected " ++ toString expected ++ ", got " ++ toString actual

/-- The message pushed when the coherence score is below 7. -/
def coherenceMsg (score : Int) : String :=
  "Sentence not coherent enough (score: " ++ toString score ++ "/10, need 7+)"

/-- The message returned by the length guard. -/
def tooLongMsg (len : Nat) : String :=
  "Sentence too long: " ++ toString len ++ " chars (max " ++ toString MAX_SENTENCE_LENGTH ++ ")"

/-- The error messages accumulated by checks 2-4 of `verifyCoherent`
(lexical coverage, exact word count, surface well-formedness), in the
order the source pushes them, for the already-trimmed sentence. -/
def preCoherenceErrors (challenge : CoherentChallenge) (sentence : String) : List String :=
  let wordCheck := containsAllWords sentence challenge.words
  let actualCount := countWords sentence
  let grammarCheck := basicGrammarCheck sentence
  (if wordCheck.valid then [] else [missingWordsMsg wordCheck.missing]) ++
  (if actualCount = challenge.wordCount then [] else [wordCountMsg challenge.wordCount actualCount]) ++
  (if grammarCheck.valid then [] else [grammarCheck.error.getD ""])

/-- coherent.ts `verifyCoherent`: trim the candidate, apply the length
guard, accumulate the check-2-4 errors, run the coherence oracle only when
those produced none, and set `valid := errors.length === 0`. -/
def verifyCoherent (challenge : CoherentChallenge) (answer : CoherentAnswer)
    (oracle : OracleOutcome) : CoherentVerifyResult :=
  let sentence := jsTrim answer.sentence
  if sentence.length > MAX_SENTENCE_LENGTH then
    { valid := false, errors := [tooLongMsg sentence.length], coherenceScore := none }
  else
    let errors0 := preCoherenceErrors challenge sentence
    let scored : List String × Option Int :=
      if errors0.isEmpty then
        let coherence := checkCoherence oracle
        ((if coherence.score < 7 then [coherenceMsg coherence.score] else []), some coherence.score)
      else (errors0, none)
    { valid := scored.1.isEmpty, errors := scored.1, coherenceScore := scored.2 }

/-- coherent.ts `NOUNS`. -/
def NOUNS : List String :=
  ["apple", "telescope", "mountain", "river", "butterfly", "castle", "dragon",
   "library", "volcano", "umbrella", "penguin", "lighthouse", "whisper", "thunder",
   "garden", "crystal", "shadow", "melody", "puzzle", "compass", "lantern",
   "feather", "anchor", "rainbow", "bridge", "mirror", "candle", "forest",
   "island", "treasure", "clock", "storm", "diamond", "sunset", "keyboard"]

/-- coherent.ts `ADJECTIVES`. -/
def ADJECTIVES : List String :=
  ["purple", "ancient", "silent", "golden", "frozen", "hidden", "curious",
   "gentle", "fierce", "mysterious", "brilliant", "hollow", "distant", "sacred",
   "fragile", "endless", "vivid", "tranquil", "bold", "subtle"]

/-- coherent.ts `VERBS`. -/
def VERBS : List String :=
  ["whisper", "dance", "climb", "discover", "remember", "chase", "embrace",
   "wander", "create", "believe", "vanish", "emerge", "transform", "protect"]

/-- coherent.ts `TIME_WORDS`. -/
def TIME_WORDS : List String :=
  ["yesterday", "tomorrow", "wednesday", "midnight", "sunrise", "autumn",
   "forever", "suddenly", "eventually", "meanwhile"]

/-- coherent.ts `pickRandom`: pair each element with a random sort key,
sort ascending by key (`Array.prototype.sort` with `a.sort - b.sort` is a
stable ascending sort), and take the first `n`.  The random `Uint32`
values are supplied as `keys`, indexed by array position. -/
def pickRandom (arr : List String) (keys : Nat → Nat) (n : Nat) : List String :=
  ((((arr.enum.map (fun p => (p.2, keys p.1))).insertionSort
      (fun a b => a.2 ≤ b.2)).map Prod.fst).take n)

/-- The shuffle `.sort(() => Math.random() - 0.5)` in
`generateCoherentChallenge`: an ECMAScript sort with an arbitrary
comparator always returns some rearrangement of its input, so it is
embedded as reading off positions `σ`; the theorems below quantify over
`σ` being a permutation of the index range, which every sort result
satisfies. -/
def applyRearrangement (σ : List Nat) (l : List String) : List String :=
  σ.filterMap (fun i => l.get? i)

/-- coherent.ts `generateCoherentChallenge`: 2 nouns, 1 adjective, 1 verb
and 1 time word (each drawn by `pickRandom` with its own random keys),
shuffled; the target word count is `15 + byte % 11`; the timeout is fixed
at 10000 ms. -/
def generateCoherentChallenge (kN kA kV kT : Nat → Nat) (σ : List Nat)
    (randomByte : Fin 256) : CoherentChallenge :=
  let words := applyRearrangement σ
    (pickRandom NOUNS kN 2 ++ pickRandom ADJECTIVES kA 1 ++
     pickRandom VERBS kV 1 ++ pickRandom TIME_WORDS kT 1)
  { words := words,
    wordCount := 15 + randomByte.val % 11,
    timeoutMs := 10000 }

/-! ### Association-list embedding of JavaScript `Map` stores -/

/-- `Map.get`: look a key up in an association-list store. -/
def lookupKey (k : String) (l : List (String × α)) : Option α :=
  (l.find? (fun e => e.1 = k)).map Prod.snd

/-- `Map.set`: bind `k` to `v`, replacing any previous binding of `k`. -/
def setKey (k : String) (v : α) (l : List (String × α)) : List (String × α) :=
  (k, v) :: l.filter (fun e => e.1 ≠ k)

/-- `Map.delete`: remove the binding of `k`. -/
def deleteKey (k : String) (l : List (String × α)) : List (String × α) :=
  l.filter (fun e => e.1 ≠ k)

/-! ### rateLimit.ts -/

/-- rateLimit.ts `RateLimitConfig`; `refillInterval` only drives the
background sweep and is carried along unused by the checks. -/
structure RateLimitConfig where
  maxTokens : ℚ
  refillRate : ℚ
  refillInterval : Int
deriving DecidableEq

/-- rateLimit.ts `TokenBucket`. -/
structure TokenBucket where
  tokens : ℚ
  lastRefill : Int
deriving DecidableEq

/-- A `Map<string, TokenBucket>` rate-limit store. -/
abbrev RateStore := List (String × TokenBucket)

/-- rateLimit.ts `RATE_LIMITS.challenge`: 10 per minute. -/
def RATE_LIMITS_challenge : RateLimitConfig :=
  { maxTokens := 10, refillRate := 10 / 60, refillInterval := 1000 }

/-- rateLimit.ts `RATE_LIMITS.submit`: 30 per minute. -/
def RATE_LIMITS_submit : RateLimitConfig :=
  { maxTokens := 30, refillRate := 30 / 60, refillInterval := 1000 }

/-- rateLimit.ts `getBucket`: the stored bucket for `ip`, or a fresh full
bucket created (and stored) at the current time.  Returns the bucket and
the store after the possible insertion. -/
def getBucket (store : RateStore) (ip : String) (config : RateLimitConfig)
    (now : Int) : TokenBucket × RateStore :=
  match lookupKey ip store with
  | some b => (b, store)
  | none =>
    let b : TokenBucket := { tokens := config.maxTokens, lastRefill := now }
    (b, setKey ip b store)

/-- rateLimit.ts `refillBucket`: add `(elapsed / 1000) × refillRate`
tokens, capped at `maxTokens`, and stamp the refill time. -/
def refillBucket (bucket : TokenBucket) (config : RateLimitConfig)
    (now : Int) : TokenBucket :=
  let elapsed : Int := now - bucket.lastRefill
  let tokensToAdd : ℚ := ((elapsed : ℚ) / 1000) * config.refillRate
  { tokens := min config.maxTokens (bucket.tokens + tokensToAdd), lastRefill := now }

/-- The value returned by `checkRateLimit`. -/
structure RateLimitResult where
  allowed : Bool
  retryAfterMs : Option Int
deriving DecidableEq

/-- rateLimit.ts `checkRateLimit`: refill the caller's bucket, consume
one token if at least one is available, otherwise deny and report
`Math.ceil((1 - tokens) / refillRate * 1000)` milliseconds to wait.  The
returned store reflects the in-place mutations of `getBucket`,
`refillBucket` and the consumption. -/
def checkRateLimit (store : RateStore) (ip : String) (config : RateLimitConfig)
    (now : Int) : RateLimitResult × RateStore :=
  let got := getBucket store ip config now
  let bucket := refillBucket got.1 config now
  if bucket.tokens ≥ 1 then
    ({ allowed := true, retryAfterMs := none },
      setKey ip { bucket with tokens := bucket.tokens - 1 } got.2)
  else
    let tokensNeeded := 1 - bucket.tokens
    ({ allowed := false, retryAfterMs := some ⌈(tokensNeeded / config.refillRate) * 1000⌉ },
      setKey ip bucket got.2)

/-! ### sessions.ts -/

/-- The session status union `'active' | 'passed' | 'failed'`. -/
inductive SessionStatus where
  | active
  | passed
  | failed
deriving DecidableEq, Repr

/-- The per-block challenge stored in a session:
`CoherentChallenge & { id: string }`. -/
structure SessionChallenge extends CoherentChallenge where
  id : String
deriving DecidableEq, Repr

/-- sessions.ts `AuthSession`. -/
structure AuthSession where
  id : String
  clientIp : String
  currentBlock : Nat
  maxBlocks : Nat
  challenge : SessionChallenge
  blockStartedAt : Int
  blockTimeoutMs : Int
  sessionCreatedAt : Int
  status : SessionStatus
  passedAt : Option Int := none
  failedAt : Option Int := none
deriving DecidableEq, Repr

/-- sessions.ts `SESSION_MAX_AGE_MS` (5 minutes). -/
def SESSION_MAX_AGE_MS : Int := 5 * 60 * 1000

/-- sessions.ts `MAX_SESSIONS`. -/
def MAX_SESSIONS : Nat := 10000

/-- The `Map<string, AuthSession>` session store. -/
abbrev SessionStore := List (String × AuthSession)

/-- sessions.ts `isBlockExpired`: strictly more than `blockTimeoutMs`
milliseconds elapsed since the block started. -/
def isBlockExpired (session : AuthSession) (now : Int) : Bool :=
  now - session.blockStartedAt > session.blockTimeoutMs

/-- sessions.ts `getBlockTimeRemaining`. -/
def getBlockTimeRemaining (session : AuthSession) (now : Int) : Int :=
  max 0 (session.blockTimeoutMs - (now - session.blockStartedAt))

/-- sessions.ts `advanceToNextBlock`: on the last block mark the session
failed and return `false`; otherwise increment the block number, install
the freshly generated challenge `newChallenge` under the fresh id `newId`,
and restart the block clock.  The fresh challenge and id are parameters
(they come from `generateCoherentChallenge` / `generateChallengeId`). -/
def advanceToNextBlock (session : AuthSession) (newChallenge : CoherentChallenge)
    (newId : String) (now : Int) : Bool × AuthSession :=
  if session.currentBlock ≥ session.maxBlocks then
    (false, { session with status := .failed, failedAt := some now })
  else
    (true, { session with
      currentBlock := session.currentBlock + 1,
      challenge := { toCoherentChallenge := newChallenge, id := newId },
      blockStartedAt := now })

/-- sessions.ts `markSessionPassed`. -/
def markSessionPassed (session : AuthSession) (now : Int) : AuthSession :=
  { session with status := .passed, passedAt := some now }

/-- sessions.ts `markSessionFailed`. -/
def markSessionFailed (session : AuthSession) (now : Int) : AuthSession :=
  { session with status := .failed, failedAt := some now }

/-- The emergency-eviction phase of sessions.ts `cleanupOldSessions`: if
the store is over `MAX_SESSIONS`, sort the entries by creation time
(ascending, stable, as `Array.prototype.sort` is) and delete the excess
entries oldest first. -/
def evictExcess (store1 : SessionStore) : SessionStore :=
  if store1.length > MAX_SESSIONS then
    let sorted := store1.insertionSort (fun a b => a.2.sessionCreatedAt ≤ b.2.sessionCreatedAt)
    let victims := (sorted.take (store1.length - MAX_SESSIONS)).map Prod.fst
    victims.foldl (fun st k => deleteKey k st) store1
  else store1

/-- sessions.ts `cleanupOldSessions`: delete the sessions whose age
exceeds `SESSION_MAX_AGE_MS`, then run the emergency eviction. -/
def cleanupOldSessions (now : Int) (store : SessionStore) : SessionStore :=
  evictExcess (store.filter (fun e => ¬ (now - e.2.sessionCreatedAt > SESSION_MAX_AGE_MS)))

/-- sessions.ts `createSession`: build a fresh Block-1 session (status
`active`, `maxBlocks = 3`), store it, then run `cleanupOldSessions`.  The
generated session id, challenge and challenge id are parameters (they come
from `crypto.getRandomValues`). -/
def createSession (store : SessionStore) (clientIp : String) (blockTimeoutMs : Int)
    (sessionId : String) (challenge : CoherentChallenge) (challengeId : String)
    (now : Int) : AuthSession × SessionStore :=
  let session : AuthSession :=
    { id := sessionId, clientIp := clientIp, currentBlock := 1, maxBlocks := 3,
      challenge := { toCoherentChallenge := challenge, id := challengeId },
      blockStartedAt := now, blockTimeoutMs := blockTimeoutMs,
      sessionCreatedAt := now, status := .active }
  (session, cleanupOldSessions now (setKey sessionId session store))

/-! ### token.ts -/

/-- types.ts `VerificationToken`. -/
structure VerificationToken where
  token : String
  challengeId : String
  issuedAt : Int
  expiresAt : Int
  clientIp : Option String
deriving DecidableEq, Repr

/-- The `Map<string, VerificationToken>` of `MemoryTokenStore`. -/
abbrev TokenStore := List (String × VerificationToken)

/-- types.ts `ValidateResponse`. -/
structure ValidateResponse where
  valid : Bool
  challengeId : Option String := none
  expiresAt : Option Int := none
  error : Option String := none
deriving DecidableEq, Repr

/-- The configuration fields of `Config` the embedded functions read
(port, CORS, rate-limit and logging fields are unused by them). -/
structure Config where
  challengeTimeoutMs : Int
  tokenExpiryMs : Int
deriving DecidableEq, Repr

/-- JavaScript `String.prototype.startsWith`. -/
def jsStartsWith (s pre : String) : Bool :=
  (matchWord pre.data s.data).isSome

/-- token.ts `generateTokenString`: `rcap_` followed by the URL-safe
base64 of 32 random bytes; the random suffix is a parameter. -/
def generateTokenString (urlSafe : String) : String :=
  "rcap_" ++ urlSafe

/-- token.ts `createToken`: build a token that expires `tokenExpiryMs`
from now, store it, and return it. -/
def createToken (config : Config) (challengeId : String) (clientIp : Option String)
    (urlSafe : String) (now : Int) (store : TokenStore) :
    VerificationToken × TokenStore :=
  let tokenData : VerificationToken :=
    { token := generateTokenString urlSafe, challengeId := challengeId,
      issuedAt := now, expiresAt := now + config.tokenExpiryMs, clientIp := clientIp }
  (tokenData, setKey tokenData.token tokenData store)

/-- token.ts `validateToken`: reject empty or badly-prefixed token
strings; reject (and sweep) expired tokens; otherwise delete the token
(single use) and report it valid. -/
def validateToken (store : TokenStore) (token : String) (now : Int) :
    ValidateResponse × TokenStore :=
  if token = "" then
    ({ valid := false, error := some "Token is required" }, store)
  else if ¬ jsStartsWith token "rcap_" then
    ({ valid := false, error := some "Invalid token format" }, store)
  else
    match lookupKey token store with
    | none => ({ valid := false, error := some "Token not found or already used" }, store)
    | some tokenData =>
      if now > tokenData.expiresAt then
        ({ valid := false, error := some "Token expired" }, deleteKey token store)
      else
        ({ valid := true, challengeId := some tokenData.challengeId,
           expiresAt := some tokenData.expiresAt }, deleteKey token store)

/-! ### server.ts, the `/auth/submit` handler -/

/-- The JSON response shapes the `/auth/submit` handler can produce once
the request body has been parsed (each constructor carries the fields the
flow distinguishes). -/
inductive SubmitResponse where
  /-- 400, `Answer too long. Maximum 10000 characters.` -/
  | answerTooLong
  /-- 404, `Session not found or expired`. -/
  | sessionNotFound
  /-- 400, `Session already passed/failed`. -/
  | sessionNotActive (status : SessionStatus)
  /-- 401, `All blocks exhausted. Authentication failed.` -/
  | blocksExhausted (block : Nat)
  /-- 200, `blockExpired: true` with the new block's challenge. -/
  | blockAdvanced (newBlock : Nat) (challengeId : String) (words : List String)
      (wordCount : Nat) (timeoutMs : Int) (expiresAt : Int)
  /-- 200, success with a freshly created token. -/
  | passed (token : String) (block : Nat) (coherenceScore : Option Int)
  /-- 400, verification failed with the pipeline's errors. -/
  | verifyFailed (errors : List String) (block : Nat) (timeRemaining : Int)
      (coherenceScore : Option Int)
deriving DecidableEq, Repr

/-- The `/auth/submit` handler of server.ts `createServer`, from the point
where the request body has been parsed and the rate limit passed:
length-guard the answer, look the session up (`session?` is the result of
`getSession`), require it active, route through the timeout transition
when the block expired, and otherwise verify the answer, minting a token
on success.  Randomness and the oracle enter as parameters:
`newChallenge` / `newChallengeId` are what `generateCoherentChallenge` /
`generateChallengeId` would produce inside `advanceToNextBlock`, and
`tokenSuffix` is the random part of a freshly created token.  Returns the
response, the session as left by the handler, and the token store. -/
def authSubmit (config : Config) (session? : Option AuthSession) (answer : String)
    (oracle : OracleOutcome) (newChallenge : CoherentChallenge)
    (newChallengeId : String) (tokenSuffix : String) (tokenStore : TokenStore)
    (clientIp : String) (now : Int) :
    SubmitResponse × Option AuthSession × TokenStore :=
  if answer.length > MAX_SENTENCE_LENGTH then
    (.answerTooLong, session?, tokenStore)
  else
    match session? with
    | none => (.sessionNotFound, none, tokenStore)
    | some session =>
      if session.status ≠ .active then
        (.sessionNotActive session.status, some session, tokenStore)
      else if isBlockExpired session now then
        let adv := advanceToNextBlock session newChallenge newChallengeId now
        if !adv.1 then
          (.blocksExhausted adv.2.currentBlock, some adv.2, tokenStore)
        else
          (.blockAdvanced adv.2.currentBlock adv.2.challenge.id adv.2.challenge.words
            adv.2.challenge.wordCount adv.2.blockTimeoutMs
            (adv.2.blockStartedAt + adv.2.blockTimeoutMs), some adv.2, tokenStore)
      else
        let verifyResult := verifyCoherent session.challenge.toCoherentChallenge
          { sentence := answer } oracle
        if verifyResult.valid then
          let created := createToken config session.challenge.id (some clientIp)
            tokenSuffix now tokenStore
          (.passed created.1.token session.currentBlock verifyResult.coherenceScore,
            some (markSessionPassed session now), created.2)
        else
          (.verifyFailed verifyResult.errors session.currentBlock
            (getBlockTimeRemaining session now) verifyResult.coherenceScore,
            some session, tokenStore)

/-! ### Helper lemmas about the store operations and word matching -/

theorem lookupKey_setKey_self (k : String) (v : α) (l : List (String × α)) :
    lookupKey k (setKey k v l) = some v := by
  simp [lookupKey, setKey]

theorem lookupKey_deleteKey_self (k : String) (l : List (String × α)) :
    lookupKey k (deleteKey k l) = none := by
  have hfind : List.find? (fun e => decide (e.1 = k))
      (List.filter (fun e => decide (e.1 ≠ k)) l) = none := by
    apply List.find?_eq_none.mpr
    intro e he
    have := List.of_mem_filter he
    simpa using this
  simp [lookupKey, deleteKey, hfind]

theorem matchWord_eq_some_iff {w s r : List Char} :
    matchWord w s = some r ↔ s = w ++ r := by
  induction w generalizing s with
  | nil => simp [matchWord]
  | cons c w ih =>
    cases s with
    | nil => simp [matchWord]
    | cons d s' =>
      by_cases hcd : c = d
      · subst hcd
        simp [matchWord, ih]
      · constructor
        · intro h
          simp [matchWord, hcd] at h
        · intro h
          injection h with h1 h2
          exact absurd h1.symm hcd

theorem matchWord_self_append (w r : List Char) : matchWord w (w ++ r) = some r :=
  matchWord_eq_some_iff.mpr rfl

theorem generateTokenString_ne_empty (urlSafe : String) :
    generateTokenString urlSafe ≠ "" := by
  intro h
  have hd := congrArg String.data h
  simp [generateTokenString, String.data_append] at hd

theorem generateTokenString_startsWith (urlSafe : String) :
    (jsStartsWith (generateTokenString urlSafe) "rcap_") = true := by
  show (matchWord ("rcap_").data (generateTokenString urlSafe).data).isSome = true
  have hd : (generateTokenString urlSafe).data = "rcap_".data ++ urlSafe.data := by
    simp [generateTokenString, String.data_append]
  rw [hd, matchWord_self_append]
  rfl

/-! ### C5 -/

/-- The degraded oracle outcomes of `checkCoherence`: no API key, the
request failed, a non-ok response, or a reply whose content does not parse
to an integer in 1..10. -/
def OracleDegraded (o : OracleOutcome) : Prop :=
  match o with
  | .noApiKey => True
  | .requestFailed => True
  | .responseNotOk => True
  | .reply content =>
    match parseIntJS ((content.map jsTrim).getD "") with
    | none => True
    | some n => n < 1 ∨ n > 10

/-- C5: `checkCoherence` never raises a hard failure for oracle
unavailability: on every degraded outcome (missing API key, failed
request, non-ok response, or a reply that does not parse to an integer in
1..10) it returns the fixed passing score 7, and consequently
`verifyCoherent` accepts any candidate that passes checks 2-4, so a
candidate is never rejected solely because the oracle was unavailable or
mis-configured. -/
theorem checkCoherence_degraded_passes (o : OracleOutcome) (h : OracleDegraded o) :
    (checkCoherence o).score = 7 ∧
    ∀ (challenge : CoherentChallenge) (answer : CoherentAnswer),
      (jsTrim answer.sentence).length ≤ MAX_SENTENCE_LENGTH →
      preCoherenceErrors challenge (jsTrim answer.sentence) = [] →
      (verifyCoherent challenge answer o).valid = true := by
  have hscore : (checkCoherence o).score = 7 := by
    cases o with
    | noApiKey => rfl
    | requestFailed => rfl
    | responseNotOk => rfl
    | reply content =>
      rcases hp : parseIntJS ((content.map jsTrim).getD "") with _ | n
      · simp [checkCoherence, hp]
      · have h2 : (match parseIntJS ((content.map jsTrim).getD "") with
            | none => True
            | some n => n < 1 ∨ n > 10) := h
        rw [hp] at h2
        have h3 : n < 1 ∨ n > 10 := h2
        have hb : (decide (n < 1) || decide (n > 10)) = true := by
          rcases h3 with h3 | h3 <;> simp [h3]
        simp [checkCoherence, hp, hb]
  refine ⟨hscore, ?_⟩
  intro challenge answer hlen hpre
  unfold verifyCoherent
  have hgt : ¬ (jsTrim answer.sentence).length > MAX_SENTENCE_LENGTH := by omega
  simp only [hgt, if_false]
  simp [hpre, hscore]

/-- C5 witness: the missing-API-key outcome is degraded and yields
score 7, and a well-formed candidate passing checks 2-4 is accepted. -/
theorem checkCoherence_degraded_passes_witness :
    OracleDegraded .noApiKey ∧ (checkCoherence .noApiKey).score = 7 ∧
    (verifyCoherent { words := ["apple"], wordCount := 3, timeoutMs := 9000 }
      { sentence := "The apple pie." } .noApiKey).valid = true := by
  refine ⟨trivial, (checkCoherence_degraded_passes .noApiKey trivial).1, ?_⟩
  exact (checkCoherence_degraded_passes .noApiKey trivial).2
    { words := ["apple"], wordCount := 3, timeoutMs := 9000 }
    { sentence := "The apple pie." } (by decide) (by decide)

/-! ### C3 -/

/-- C3: token redemption is exactly-once and destructive.  For a token
just issued by `createToken` and redeemed before its expiry time, the
first `validateToken` call returns `valid = true` and removes the token
from the store, and every subsequent call on the same string (at any
time) returns `valid = false` with the `Token not found or already used`
error, leaving the store unchanged. -/
theorem validateToken_exactly_once (config : Config) (challengeId : String)
    (clientIp : Option String) (urlSafe : String) (now now' : Int)
    (store : TokenStore) (td : VerificationToken) (s1 : TokenStore)
    (hc : createToken config challengeId clientIp urlSafe now store = (td, s1))
    (h : now' ≤ now + config.tokenExpiryMs) :
    (validateToken s1 td.token now').1.valid = true ∧
    lookupKey td.token (validateToken s1 td.token now').2 = none ∧
    ∀ now'' : Int,
      (validateToken (validateToken s1 td.token now').2 td.token now'').1
        = { valid := false, error := some "Token not found or already used" } ∧
      (validateToken (validateToken s1 td.token now').2 td.token now'').2
        = (validateToken s1 td.token now').2 := by
  have htd : td = { token := generateTokenString urlSafe,
                    challengeId := challengeId,
                    issuedAt := now,
                    expiresAt := now + config.tokenExpiryMs,
                    clientIp := clientIp } := by
    have hfst := congrArg Prod.fst hc
    simpa [createToken] using hfst.symm
  have hs1 : s1 = setKey td.token td store := by
    have hsnd := congrArg Prod.snd hc
    simp only [createToken] at hsnd
    rw [← hsnd, htd]
  have hne : td.token ≠ "" := by
    rw [htd]; exact generateTokenString_ne_empty urlSafe
  have hpre : (jsStartsWith td.token "rcap_") = true := by
    rw [htd]; exact generateTokenString_startsWith urlSafe
  have hlook : lookupKey td.token s1 = some td := by
    rw [hs1]; exact lookupKey_setKey_self td.token td store
  have hexp : ¬ now' > td.expiresAt := by
    rw [htd]; simpa using h
  have hfirst : validateToken s1 td.token now'
      = ({ valid := true, challengeId := some td.challengeId,
           expiresAt := some td.expiresAt }, deleteKey td.token s1) := by
    unfold validateToken
    simp [hne, hpre, hlook, hexp]
  refine ⟨by rw [hfirst], ?_, ?_⟩
  · rw [hfirst]
    exact lookupKey_deleteKey_self td.token s1
  · intro now''
    have hlook2 : lookupKey td.token (validateToken s1 td.token now').2 = none := by
      rw [hfirst]
      exact lookupKey_deleteKey_self td.token s1
    have hl : lookupKey td.token (deleteKey td.token s1) = none :=
      lookupKey_deleteKey_self td.token s1
    constructor
    · rw [hfirst]
      unfold validateToken
      simp [hne, hpre, hl]
    · rw [hfirst]
      unfold validateToken
      simp [hne, hpre, hl]

/-- C3 witness: a concrete token created at time 0 with a 60000 ms expiry
and redeemed at time 1000. -/
theorem validateToken_exactly_once_witness :
    createToken { challengeTimeoutMs := 9000, tokenExpiryMs := 60000 } "ch_1" none
        "abc" 0 []
      = ({ token := "rcap_abc", challengeId := "ch_1", issuedAt := 0,
           expiresAt := 60000, clientIp := none },
         [("rcap_abc",
           { token := "rcap_abc", challengeId := "ch_1", issuedAt := 0,
             expiresAt := 60000, clientIp := none })]) ∧
    (1000 : Int) ≤ 0 + 60000 ∧
    (validateToken
        [("rcap_abc",
          { token := "rcap_abc", challengeId := "ch_1", issuedAt := 0,
            expiresAt := 60000, clientIp := none })] "rcap_abc" 1000).1.valid = true := by
  refine ⟨by decide, by decide, ?_⟩
  exact (validateToken_exactly_once
    { challengeTimeoutMs := 9000, tokenExpiryMs := 60000 } "ch_1" none "abc" 0 1000 []
    { token := "rcap_abc", challengeId := "ch_1", issuedAt := 0,
      expiresAt := 60000, clientIp := none }
    [("rcap_abc",
      { token := "rcap_abc", challengeId := "ch_1", issuedAt := 0,
        expiresAt := 60000, clientIp := none })]
    (by decide) (by decide)).1

/-! ### C2 -/

/-- C2 (the failing input): with the random draw that assigns NOUNS
index 12 (`whisper`) the smallest sort key and leaves every other pool in
its original order, with the identity shuffle `[0,1,2,3,4]` (a permutation
of the index range) and byte 0, the generated challenge contains
`whisper` twice — the five required words are not pairwise distinct.
`NOUNS` and `VERBS` share the word `whisper`, contradicting both the
spec's distinctness invariant and the repo's own test
(`should generate 5 unique words`). -/
theorem generateCoherentChallenge_whisper_duplicate :
    (generateCoherentChallenge (fun i => if i = 12 then 0 else i + 1)
        (fun i => i) (fun i => i) (fun i => i) [0, 1, 2, 3, 4] 0).words
      = ["whisper", "apple", "purple", "whisper", "yesterday"] ∧
    ¬ (generateCoherentChallenge (fun i => if i = 12 then 0 else i + 1)
        (fun i => i) (fun i => i) (fun i => i) [0, 1, 2, 3, 4] 0).words.Nodup := by
  decide

/-! ### C1 -/

/-- C1: for every challenge and every candidate whose trimmed text is at
most 10000 characters, `verifyCoherent` runs checks 2-4 (lexical
coverage, exact word count, surface well-formedness) unconditionally and
accumulates every failing check's message, in push order, into `errors`;
the coherence oracle is consulted only when checks 2-4 produced no error,
in which case a coherence failure is the only possible error; and the
returned `valid` flag is true iff the returned `errors` list is empty. -/
theorem verifyCoherent_pipeline (challenge : CoherentChallenge)
    (answer : CoherentAnswer) (oracle : OracleOutcome)
    (h : (jsTrim answer.sentence).length ≤ MAX_SENTENCE_LENGTH) :
    (preCoherenceErrors challenge (jsTrim answer.sentence) ≠ [] →
      (verifyCoherent challenge answer oracle).errors
          = preCoherenceErrors challenge (jsTrim answer.sentence) ∧
      (verifyCoherent challenge answer oracle).coherenceScore = none) ∧
    (preCoherenceErrors challenge (jsTrim answer.sentence) = [] →
      (verifyCoherent challenge answer oracle).coherenceScore
          = some (checkCoherence oracle).score ∧
      ((verifyCoherent challenge answer oracle).errors = [] ∨
        (verifyCoherent challenge answer oracle).errors
          = [coherenceMsg (checkCoherence oracle).score])) ∧
    ((verifyCoherent challenge answer oracle).valid = true ↔
      (verifyCoherent challenge answer oracle).errors = []) := by
  have hgt : ¬ (jsTrim answer.sentence).length > MAX_SENTENCE_LENGTH := by omega
  unfold verifyCoherent
  simp only [hgt, if_false]
  by_cases hpre : preCoherenceErrors challenge (jsTrim answer.sentence) = []
  · simp only [hpre, List.isEmpty_nil, if_true]
    by_cases hsc : (checkCoherence oracle).score < 7
    · simp [hsc]
    · simp [hsc]
  · have hne : (preCoherenceErrors challenge (jsTrim answer.sentence)).isEmpty = false := by
      simpa [List.isEmpty_iff] using hpre
    simp [hne, hpre, List.isEmpty_iff]

/-- C1 witness: a concrete in-bounds candidate (here one with a failing
word-count check). -/
theorem verifyCoherent_pipeline_witness :
    (jsTrim ("The apple pie." : String)).length ≤ MAX_SENTENCE_LENGTH ∧
    ((preCoherenceErrors { words := ["apple"], wordCount := 7, timeoutMs := 9000 }
        (jsTrim ("The apple pie." : String)) ≠ [] →
      (verifyCoherent { words := ["apple"], wordCount := 7, timeoutMs := 9000 }
          { sentence := "The apple pie." } .noApiKey).errors
          = preCoherenceErrors { words := ["apple"], wordCount := 7, timeoutMs := 9000 }
              (jsTrim ("The apple pie." : String)) ∧
      (verifyCoherent { words := ["apple"], wordCount := 7, timeoutMs := 9000 }
          { sentence := "The apple pie." } .noApiKey).coherenceScore = none) ∧
    (preCoherenceErrors { words := ["apple"], wordCount := 7, timeoutMs := 9000 }
        (jsTrim ("The apple pie." : String)) = [] →
      (verifyCoherent { words := ["apple"], wordCount := 7, timeoutMs := 9000 }
          { sentence := "The apple pie." } .noApiKey).coherenceScore
          = some (checkCoherence .noApiKey).score ∧
      ((verifyCoherent { words := ["apple"], wordCount := 7, timeoutMs := 9000 }
          { sentence := "The apple pie." } .noApiKey).errors = [] ∨
        (verifyCoherent { words := ["apple"], wordCount := 7, timeoutMs := 9000 }
          { sentence := "The apple pie." } .noApiKey).errors
          = [coherenceMsg (checkCoherence .noApiKey).score])) ∧
    ((verifyCoherent { words := ["apple"], wordCount := 7, timeoutMs := 9000 }
        { sentence := "The apple pie." } .noApiKey).valid = true ↔
      (verifyCoherent { words := ["apple"], wordCount := 7, timeoutMs := 9000 }
        { sentence := "The apple pie." } .noApiKey).errors = [])) :=
  ⟨by decide,
   verifyCoherent_pipeline { words := ["apple"], wordCount := 7, timeoutMs := 9000 }
     { sentence := "The apple pie." } .noApiKey (by decide)⟩

/-! ### C4 and C8: the `/auth/submit` handler -/

/-- A concrete active block-1 session used as input for the handler
theorems below (started at time 0 with the default 9000 ms block
timeout). -/
def sampleSession : AuthSession :=
  { id := "ses_1", clientIp := "203.0.113.7", currentBlock := 1, maxBlocks := 3,
    challenge := { words := ["apple", "purple", "dance", "river", "sunset"],
                   wordCount := 20, timeoutMs := 10000, id := "ch_1" },
    blockStartedAt := 0, blockTimeoutMs := 9000, sessionCreatedAt := 0,
    status := .active }

/-- C4 counterexample: the handler checks the answer-length guard before
the block-timeout transition, so a submission whose answer exceeds 10000
characters, made to an active session whose block timeout has elapsed and
whose current block (1) is below the maximum (3), leaves the session
completely unchanged — its block number is not incremented and no new
challenge is generated, contradicting the claim that the timeout
transition is applied first on every such submission. -/
theorem authSubmit_oversized_skips_timeout_transition :
    sampleSession.status = .active ∧
    isBlockExpired sampleSession 10000 = true ∧
    sampleSession.currentBlock < 3 ∧
    (authSubmit { challengeTimeoutMs := 9000, tokenExpiryMs := 60000 }
        (some sampleSession) (String.mk (List.replicate 10001 'a')) .noApiKey
        { words := ["castle", "golden", "climb", "forest", "midnight"],
          wordCount := 18, timeoutMs := 10000 }
        "ch_2" "tok" [] "203.0.113.7" 10000).2.1 = some sampleSession ∧
    (authSubmit { challengeTimeoutMs := 9000, tokenExpiryMs := 60000 }
        (some sampleSession) (String.mk (List.replicate 10001 'a')) .noApiKey
        { words := ["castle", "golden", "climb", "forest", "midnight"],
          wordCount := 18, timeoutMs := 10000 }
        "ch_2" "tok" [] "203.0.113.7" 10000).1 = .answerTooLong := by
  have hlen : (String.mk (List.replicate 10001 'a')).length = 10001 := by
    show (List.replicate 10001 'a').length = 10001
    exact List.length_replicate 10001 'a'
  refine ⟨rfl, by decide, by decide, ?_, ?_⟩ <;>
  · unfold authSubmit
    rw [hlen]
    norm_num [MAX_SENTENCE_LENGTH]

/-- C4 (amended): for every submission whose answer passes the length
guard (at most 10000 characters) to an active session whose current
block's timeout has elapsed, the handler performs no verification of the
answer — its entire result is independent of the submitted answer — and
first applies the timeout transition: with `maxBlocks = 3`, if the
current block is below 3 the session stays active with its block number
incremented by one, the freshly generated challenge installed under its
fresh identifier, and the block start time reset to now; if the current
block is 3 (or more) the session's status becomes failed and no new
challenge is issued (the stored challenge is unchanged and the response
carries none). -/
theorem authSubmit_expired_timeout_transition (config : Config)
    (session : AuthSession) (answer : String) (oracle : OracleOutcome)
    (newChallenge : CoherentChallenge) (newChallengeId : String)
    (tokenSuffix : String) (tokenStore : TokenStore) (clientIp : String)
    (now : Int)
    (hactive : session.status = .active)
    (hexp : isBlockExpired session now = true)
    (hmax : session.maxBlocks = 3)
    (hlen : answer.length ≤ MAX_SENTENCE_LENGTH) :
    (∀ answer' : String, answer'.length ≤ MAX_SENTENCE_LENGTH →
      authSubmit config (some session) answer' oracle newChallenge newChallengeId
          tokenSuffix tokenStore clientIp now
        = authSubmit config (some session) answer oracle newChallenge newChallengeId
          tokenSuffix tokenStore clientIp now) ∧
    (session.currentBlock < 3 →
      (authSubmit config (some session) answer oracle newChallenge newChallengeId
          tokenSuffix tokenStore clientIp now).2.1
        = some { session with
            currentBlock := session.currentBlock + 1,
            challenge := { toCoherentChallenge := newChallenge, id := newChallengeId },
            blockStartedAt := now } ∧
      (authSubmit config (some session) answer oracle newChallenge newChallengeId
          tokenSuffix tokenStore clientIp now).1
        = .blockAdvanced (session.currentBlock + 1) newChallengeId
            newChallenge.words newChallenge.wordCount session.blockTimeoutMs
            (now + session.blockTimeoutMs)) ∧
    (session.currentBlock ≥ 3 →
      (authSubmit config (some session) answer oracle newChallenge newChallengeId
          tokenSuffix tokenStore clientIp now).2.1
        = some { session with status := .failed, failedAt := some now } ∧
      (authSubmit config (some session) answer oracle newChallenge newChallengeId
          tokenSuffix tokenStore clientIp now).1
        = .blocksExhausted session.currentBlock) := by
  have hgt : ¬ answer.length > MAX_SENTENCE_LENGTH := by omega
  refine ⟨?_, ?_, ?_⟩
  · intro answer' hlen'
    have hgt' : ¬ answer'.length > MAX_SENTENCE_LENGTH := by omega
    unfold authSubmit
    simp [hgt, hgt', hactive, hexp]
  · intro hlt
    have hnot : ¬ session.currentBlock ≥ session.maxBlocks := by omega
    unfold authSubmit
    simp [hgt, hactive, hexp, advanceToNextBlock, hnot]
  · intro hge
    have hyes : session.currentBlock ≥ session.maxBlocks := by omega
    unfold authSubmit
    simp [hgt, hactive, hexp, advanceToNextBlock, hyes]

/-- C4 witness for the amended theorem: a short answer submitted to the
sample session after its block timeout elapsed advances it to block 2
with the fresh challenge. -/
theorem authSubmit_expired_timeout_transition_witness :
    sampleSession.status = .active ∧
    isBlockExpired sampleSession 10000 = true ∧
    sampleSession.maxBlocks = 3 ∧
    ("hi" : String).length ≤ MAX_SENTENCE_LENGTH ∧
    (sampleSession.currentBlock < 3 →
      (authSubmit { challengeTimeoutMs := 9000, tokenExpiryMs := 60000 }
          (some sampleSession) "hi" .noApiKey
          { words := ["castle", "golden", "climb", "forest", "midnight"],
            wordCount := 18, timeoutMs := 10000 }
          "ch_2" "tok" [] "203.0.113.7" 10000).2.1
        = some { sampleSession with
            currentBlock := sampleSession.currentBlock + 1,
            challenge := { toCoherentChallenge := { words := ["castle", "golden", "climb", "forest", "midnight"], wordCount := 18, timeoutMs := 10000 }, id := "ch_2" },
            blockStartedAt := 10000 } ∧
      (authSubmit { challengeTimeoutMs := 9000, tokenExpiryMs := 60000 }
          (some sampleSession) "hi" .noApiKey
          { words := ["castle", "golden", "climb", "forest", "midnight"],
            wordCount := 18, timeoutMs := 10000 }
          "ch_2" "tok" [] "203.0.113.7" 10000).1
        = .blockAdvanced (sampleSession.currentBlock + 1) "ch_2"
            ["castle", "golden", "climb", "forest", "midnight"] 18
            sampleSession.blockTimeoutMs (10000 + sampleSession.blockTimeoutMs)) :=
  ⟨rfl, by decide, rfl, by decide,
   (authSubmit_expired_timeout_transition
      { challengeTimeoutMs := 9000, tokenExpiryMs := 60000 } sampleSession "hi"
      .noApiKey
      { words := ["castle", "golden", "climb", "forest", "midnight"],
        wordCount := 18, timeoutMs := 10000 }
      "ch_2" "tok" [] "203.0.113.7" 10000 rfl (by decide) rfl (by decide)).2.1⟩

/-- C8: a submission to an active session whose block timeout has not
elapsed and whose verification fails leaves the session completely
unchanged (every field holds its previous value), and the handler replies
with the pipeline's errors so the caller may retry against the same
challenge within the same block. -/
theorem authSubmit_failed_verify_frame (config : Config) (session : AuthSession)
    (answer : String) (oracle : OracleOutcome) (newChallenge : CoherentChallenge)
    (newChallengeId : String) (tokenSuffix : String) (tokenStore : TokenStore)
    (clientIp : String) (now : Int)
    (hactive : session.status = .active)
    (hnotexp : isBlockExpired session now = false)
    (hlen : answer.length ≤ MAX_SENTENCE_LENGTH)
    (hfail : (verifyCoherent session.challenge.toCoherentChallenge
        { sentence := answer } oracle).valid = false) :
    (authSubmit config (some session) answer oracle newChallenge newChallengeId
        tokenSuffix tokenStore clientIp now).2.1 = some session ∧
    (authSubmit config (some session) answer oracle newChallenge newChallengeId
        tokenSuffix tokenStore clientIp now).2.2 = tokenStore ∧
    (authSubmit config (some session) answer oracle newChallenge newChallengeId
        tokenSuffix tokenStore clientIp now).1
      = .verifyFailed
          (verifyCoherent session.challenge.toCoherentChallenge
            { sentence := answer } oracle).errors
          session.currentBlock (getBlockTimeRemaining session now)
          (verifyCoherent session.challenge.toCoherentChallenge
            { sentence := answer } oracle).coherenceScore := by
  have hgt : ¬ answer.length > MAX_SENTENCE_LENGTH := by omega
  unfold authSubmit
  simp [hgt, hactive, hnotexp, hfail]

/-- C8 witness: a verification-failing answer within the block window of
the sample session leaves it untouched. -/
theorem authSubmit_failed_verify_frame_witness :
    sampleSession.status = .active ∧
    isBlockExpired sampleSession 1000 = false ∧
    ("bad" : String).length ≤ MAX_SENTENCE_LENGTH ∧
    (verifyCoherent sampleSession.challenge.toCoherentChallenge
        { sentence := "bad" } .noApiKey).valid = false ∧
    (authSubmit { challengeTimeoutMs := 9000, tokenExpiryMs := 60000 }
        (some sampleSession) "bad" .noApiKey
        { words := ["castle", "golden", "climb", "forest", "midnight"],
          wordCount := 18, timeoutMs := 10000 }
        "ch_2" "tok" [] "203.0.113.7" 1000).2.1 = some sampleSession :=
  ⟨rfl, by decide, by decide, by decide,
   (authSubmit_failed_verify_frame
      { challengeTimeoutMs := 9000, tokenExpiryMs := 60000 } sampleSession "bad"
      .noApiKey
      { words := ["castle", "golden", "climb", "forest", "midnight"],
        wordCount := 18, timeoutMs := 10000 }
      "ch_2" "tok" [] "203.0.113.7" 1000 rfl (by decide) (by decide) (by decide)).1⟩

/-! ### C7 -/

theorem rightBoundary_iff {l : List Char} :
    rightBoundary l = true ↔ ∀ c, l.head? = some c → isWordChar c = false := by
  cases l with
  | nil => simp [rightBoundary]
  | cons c t => simp [rightBoundary]

theorem testAt_iff {w s : List Char} :
    testAt w s = true ↔
      ∃ post, s = w ++ post ∧ ∀ c, post.head? = some c → isWordChar c = false := by
  unfold testAt
  rcases hm : matchWord w s with _ | rest
  · simp only [Bool.false_eq_true, false_iff]
    rintro ⟨post, hpost, -⟩
    rw [hpost, matchWord_self_append] at hm
    cases hm
  · have hs : s = w ++ rest := matchWord_eq_some_iff.mp hm
    constructor
    · intro hr
      exact ⟨rest, hs, rightBoundary_iff.mp hr⟩
    · rintro ⟨post, hpost, hc⟩
      have : rest = post := by
        rw [hs] at hpost
        exact List.append_cancel_left hpost
      subst this
      exact rightBoundary_iff.mpr hc

theorem findWholeWord_iff (w : List Char) (prev : Option Char) (s : List Char) :
    findWholeWord w prev s = true ↔
      ∃ pre post, s = pre ++ w ++ post ∧
        (pre = [] → leftBoundary prev = true) ∧
        (∀ c, pre.getLast? = some c → isWordChar c = false) ∧
        (∀ c, post.head? = some c → isWordChar c = false) := by
  induction s generalizing prev with
  | nil =>
    constructor
    · intro h
      simp only [findWholeWord, Bool.and_eq_true] at h
      obtain ⟨hl, ht⟩ := h
      obtain ⟨post, hpost, hc⟩ := testAt_iff.mp ht
      exact ⟨[], post, by simpa using hpost, fun _ => hl, by simp, hc⟩
    · rintro ⟨pre, post, hs, h1, h2, h3⟩
      have hpre : pre = [] := by
        cases pre with
        | nil => rfl
        | cons a t => simp at hs
      subst hpre
      simp only [List.nil_append] at hs
      simp only [findWholeWord, Bool.and_eq_true]
      refine ⟨h1 rfl, testAt_iff.mpr ⟨post, hs, h3⟩⟩
  | cons c s' ih =>
    constructor
    · intro h
      simp only [findWholeWord, Bool.or_eq_true, Bool.and_eq_true] at h
      rcases h with ⟨hl, ht⟩ | h
      · obtain ⟨post, hpost, hc⟩ := testAt_iff.mp ht
        exact ⟨[], post, by simpa using hpost, fun _ => hl, by simp, hc⟩
      · obtain ⟨pre', post, hs, h1, h2, h3⟩ := (ih (some c)).mp h
        refine ⟨c :: pre', post, by simp [hs], by simp, ?_, h3⟩
        intro d hd
        cases pre' with
        | nil =>
          simp at hd
          subst hd
          have := h1 rfl
          simpa [leftBoundary] using this
        | cons e t =>
          rw [List.getLast?_cons_cons] at hd
          exact h2 d hd
    · rintro ⟨pre, post, hs, h1, h2, h3⟩
      simp only [findWholeWord, Bool.or_eq_true, Bool.and_eq_true]
      cases pre with
      | nil =>
        simp only [List.nil_append] at hs
        exact Or.inl ⟨h1 rfl, testAt_iff.mpr ⟨post, hs, h3⟩⟩
      | cons d pre' =>
        simp only [List.cons_append, List.cons.injEq] at hs
        obtain ⟨hdc, hs'⟩ := hs
        subst hdc
        refine Or.inr ((ih (some c)).mpr ⟨pre', post, hs', ?_, ?_, h3⟩)
        · intro hpre'
          subst hpre'
          have := h2 c (by simp)
          simp [leftBoundary, this]
        · intro e he
          apply h2
          cases pre' with
          | nil => cases he
          | cons f t => rw [List.getLast?_cons_cons]; exact he

/-- Specification-side predicate: the required word occurs in the
candidate delimited by word boundaries, ignoring letter case — some
decomposition of the lowercased sentence as `pre ++ lower word ++ post`
where `pre` does not end, and `post` does not start, with a word
character. -/
def WholeWordMatch (w sentence : String) : Prop :=
  ∃ pre post : List Char,
    sentence.data.map Char.toLower = pre ++ w.data.map Char.toLower ++ post ∧
    (∀ c, pre.getLast? = some c → isWordChar c = false) ∧
    (∀ c, post.head? = some c → isWordChar c = false)

theorem findWholeWord_eq_true_iff_wholeWordMatch (w sentence : String) :
    findWholeWord (w.data.map Char.toLower) none (sentence.data.map Char.toLower) = true
      ↔ WholeWordMatch w sentence := by
  rw [findWholeWord_iff]
  unfold WholeWordMatch
  constructor
  · rintro ⟨pre, post, hs, -, h2, h3⟩
    exact ⟨pre, post, hs, h2, h3⟩
  · rintro ⟨pre, post, hs, h2, h3⟩
    exact ⟨pre, post, hs, fun _ => rfl, h2, h3⟩

theorem filter_eq_singleton_of_unique {α : Type} [DecidableEq α] {l : List α}
    {p : α → Bool} {a : α} (hnd : l.Nodup) (ha : a ∈ l) (hpa : p a = true)
    (hother : ∀ b ∈ l, b ≠ a → p b = false) : l.filter p = [a] := by
  induction l with
  | nil => cases ha
  | cons x l ih =>
    rcases List.mem_cons.mp ha with h | h
    · subst h
      have hrest : l.filter p = [] := by
        apply List.filter_eq_nil_iff.mpr
        intro b hb
        have hba : b ≠ a := fun he => (List.nodup_cons.mp hnd).1 (he ▸ hb)
        simp [hother b (List.mem_cons_of_mem _ hb) hba]
      simp [List.filter_cons, hpa, hrest]
    · have hxa : x ≠ a := fun he => (List.nodup_cons.mp hnd).1 (he ▸ h)
      have hpx : p x = false := hother x (List.mem_cons_self x l) hxa
      have hrec := ih (List.nodup_cons.mp hnd).2 h
        (fun b hb hba => hother b (List.mem_cons_of_mem _ hb) hba)
      simp [List.filter_cons, hpx, hrec]

/-- C7: lexical coverage is whole-word and case-insensitive.  For required
words that are nonempty and consist of word characters (as all pool words
do), a word is reported missing exactly when it has no whole-word,
case-insensitive occurrence in the candidate; all absent words and only
those are collected; and a submission lacking exactly one required word is
reported with exactly that word missing and no others. -/
theorem containsAllWords_whole_word (sentence : String) (words : List String)
    (hw : ∀ w ∈ words, w.data ≠ [] ∧ ∀ c ∈ w.data, isWordChar (Char.toLower c) = true) :
    (∀ w : String, w ∈ (containsAllWords sentence words).missing ↔
        w ∈ words ∧ ¬ WholeWordMatch w sentence) ∧
    (∀ w ∈ words, words.Nodup → ¬ WholeWordMatch w sentence →
      (∀ w' ∈ words, w' ≠ w → WholeWordMatch w' sentence) →
      (containsAllWords sentence words).missing = [w]) := by
  have hfalse : ∀ w : String, ¬ WholeWordMatch w sentence →
      findWholeWord (w.data.map Char.toLower) none (sentence.data.map Char.toLower) = false := by
    intro w hm
    cases hfw : findWholeWord (w.data.map Char.toLower) none (sentence.data.map Char.toLower)
    · rfl
    · exact absurd ((findWholeWord_eq_true_iff_wholeWordMatch w sentence).mp hfw) hm
  have hmem : ∀ w : String, w ∈ (containsAllWords sentence words).missing ↔
      w ∈ words ∧ ¬ WholeWordMatch w sentence := by
    intro w
    simp only [containsAllWords, List.mem_filter, Bool.not_eq_eq_eq_not, Bool.not_true]
    rw [← findWholeWord_eq_true_iff_wholeWordMatch]
    simp
  refine ⟨hmem, ?_⟩
  intro w hwin hnd hmiss hothers
  simp only [containsAllWords]
  apply filter_eq_singleton_of_unique hnd hwin
  · simp [hfalse w hmiss]
  · intro b hb hba
    have hb' := hothers b hb hba
    rw [← findWholeWord_eq_true_iff_wholeWordMatch] at hb'
    simp [hb']

/-- C7 witness: the candidate `The apple pie.` against required words
`apple` (present, also only as a whole word) and `banana` (absent). -/
theorem containsAllWords_whole_word_witness :
    (∀ w ∈ (["apple", "banana"] : List String),
      w.data ≠ [] ∧ ∀ c ∈ w.data, isWordChar (Char.toLower c) = true) ∧
    (∀ w : String, w ∈ (containsAllWords "The apple pie." ["apple", "banana"]).missing ↔
        w ∈ (["apple", "banana"] : List String) ∧ ¬ WholeWordMatch w "The apple pie.") :=
  ⟨by decide,
   (containsAllWords_whole_word "The apple pie." ["apple", "banana"] (by decide)).1⟩

/-! ### C10 -/

theorem deleteKey_length_of_mem {α : Type} {l : List (String × α)} {k : String}
    (hkeys : (l.map Prod.fst).Nodup) (hkin : k ∈ l.map Prod.fst) :
    (deleteKey k l).length = l.length - 1 := by
  induction l with
  | nil => cases hkin
  | cons e l ih =>
    simp only [List.map_cons, List.nodup_cons] at hkeys
    obtain ⟨hnotin, hnd⟩ := hkeys
    unfold deleteKey
    simp only [decide_not, List.filter_cons]
    rcases List.mem_cons.mp hkin with h | h
    · rw [if_neg (by simp [h.symm])]
      have hrest : List.filter (fun e => !decide (e.1 = k)) l = l := by
        apply List.filter_eq_self.mpr
        intro b hb
        have hbk : ¬ b.1 = k := by
          intro he
          exact hnotin (h ▸ he ▸ List.mem_map_of_mem Prod.fst hb)
        simp [hbk]
      simp [hrest]
    · have hek : e.1 ≠ k := fun he => hnotin (he ▸ h)
      have hlen := ih hnd h
      have hpos : 1 ≤ l.length := by
        cases l with
        | nil => cases h
        | cons f t => simp
      unfold deleteKey at hlen
      simp only [decide_not] at hlen
      rw [if_pos (by simp [hek])]
      simp only [List.length_cons, hlen]
      omega

theorem mem_keys_deleteKey {α : Type} {l : List (String × α)} {k k' : String}
    (h : k' ∈ l.map Prod.fst) (hne : k' ≠ k) :
    k' ∈ (deleteKey k l).map Prod.fst := by
  obtain ⟨e, he, rfl⟩ := List.mem_map.mp h
  apply List.mem_map_of_mem
  unfold deleteKey
  exact List.mem_filter.mpr ⟨he, by simpa using hne⟩

theorem deleteKey_keys_nodup {α : Type} {l : List (String × α)} (k : String)
    (hkeys : (l.map Prod.fst).Nodup) : ((deleteKey k l).map Prod.fst).Nodup :=
  ((List.filter_sublist l).map Prod.fst).nodup hkeys

theorem foldl_deleteKey_length {α : Type} (vs : List String) (l : List (String × α))
    (hnd : vs.Nodup) (hsub : ∀ k ∈ vs, k ∈ l.map Prod.fst)
    (hkeys : (l.map Prod.fst).Nodup) :
    (vs.foldl (fun st k => deleteKey k st) l).length = l.length - vs.length := by
  induction vs generalizing l with
  | nil => simp
  | cons k vs ih =>
    obtain ⟨hk, hvs⟩ := List.nodup_cons.mp hnd
    have hkin : k ∈ l.map Prod.fst := hsub k (List.mem_cons_self k vs)
    have hdel : (deleteKey k l).length = l.length - 1 :=
      deleteKey_length_of_mem hkeys hkin
    have hkeys' : ((deleteKey k l).map Prod.fst).Nodup := deleteKey_keys_nodup k hkeys
    have hsub' : ∀ k' ∈ vs, k' ∈ (deleteKey k l).map Prod.fst := by
      intro k' hk'
      have hin := hsub k' (List.mem_cons_of_mem _ hk')
      exact mem_keys_deleteKey hin (fun he => hk (he ▸ hk'))
    have hrec := ih (deleteKey k l) hvs hsub' hkeys'
    have hpos : 1 ≤ l.length := by
      cases l with
      | nil => cases hkin
      | cons f t => simp
    simp only [List.foldl_cons, hrec, hdel, List.length_cons]
    omega

theorem evictExcess_length_le (store1 : SessionStore)
    (hkeys1 : (store1.map Prod.fst).Nodup) :
    (evictExcess store1).length ≤ MAX_SESSIONS := by
  unfold evictExcess
  by_cases hgt : store1.length > MAX_SESSIONS
  · simp only [hgt, if_true]
    have hperm : (store1.insertionSort
        (fun a b => a.2.sessionCreatedAt ≤ b.2.sessionCreatedAt)).Perm store1 :=
      List.perm_insertionSort _ _
    have hkeys_sorted : ((store1.insertionSort
        (fun a b => a.2.sessionCreatedAt ≤ b.2.sessionCreatedAt)).map Prod.fst).Nodup :=
      ((hperm.map Prod.fst).symm).nodup hkeys1
    have hvnd : (((store1.insertionSort
        (fun a b => a.2.sessionCreatedAt ≤ b.2.sessionCreatedAt)).take
          (store1.length - MAX_SESSIONS)).map Prod.fst).Nodup :=
      ((List.take_sublist _ _).map Prod.fst).nodup hkeys_sorted
    have hvsub : ∀ k ∈ ((store1.insertionSort
        (fun a b => a.2.sessionCreatedAt ≤ b.2.sessionCreatedAt)).take
          (store1.length - MAX_SESSIONS)).map Prod.fst,
        k ∈ store1.map Prod.fst := by
      intro k hk
      obtain ⟨e, he, rfl⟩ := List.mem_map.mp hk
      have he2 : e ∈ store1.insertionSort
          (fun a b => a.2.sessionCreatedAt ≤ b.2.sessionCreatedAt) :=
        (List.take_sublist _ _).mem he
      exact List.mem_map_of_mem Prod.fst (hperm.mem_iff.mp he2)
    have hlen := foldl_deleteKey_length _ store1 hvnd hvsub hkeys1
    rw [hlen]
    have hvlen : (((store1.insertionSort
        (fun a b => a.2.sessionCreatedAt ≤ b.2.sessionCreatedAt)).take
          (store1.length - MAX_SESSIONS)).map Prod.fst).length
        = store1.length - MAX_SESSIONS := by
      rw [List.length_map, List.length_take, hperm.length_eq]
      omega
    rw [hvlen]
    omega
  · simp only [hgt, if_false]
    omega

theorem setKey_keys_nodup {α : Type} (k : String) (v : α) {l : List (String × α)}
    (hkeys : (l.map Prod.fst).Nodup) : ((setKey k v l).map Prod.fst).Nodup := by
  unfold setKey
  simp only [List.map_cons, List.nodup_cons]
  constructor
  · intro hmem
    obtain ⟨e, he, hek⟩ := List.mem_map.mp hmem
    have := List.of_mem_filter he
    simp [hek] at this
  · exact ((List.filter_sublist l).map Prod.fst).nodup hkeys

/-- C10: the session store is bounded.  After every `createSession` call
the store holds at most `MAX_SESSIONS = 10000` sessions: `createSession`
runs `cleanupOldSessions`, which first removes the sessions older than
the 5-minute maximum age and then, if the store is still over the limit,
evicts the excess sessions in oldest-creation-time-first order. -/
theorem createSession_bounded (store : SessionStore) (clientIp : String)
    (blockTimeoutMs : Int) (sessionId : String) (challenge : CoherentChallenge)
    (challengeId : String) (now : Int)
    (hkeys : (store.map Prod.fst).Nodup) :
    ((createSession store clientIp blockTimeoutMs sessionId challenge
        challengeId now).2).length ≤ MAX_SESSIONS := by
  unfold createSession cleanupOldSessions
  apply evictExcess_length_le
  exact ((List.filter_sublist _).map Prod.fst).nodup (setKey_keys_nodup _ _ hkeys)

/-- C10 witness: creating a session in the empty store. -/
theorem createSession_bounded_witness :
    ((([] : SessionStore).map Prod.fst).Nodup) ∧
    ((createSession [] "203.0.113.7" 9000 "ses_1"
        { words := ["apple", "purple", "dance", "river", "sunset"],
          wordCount := 20, timeoutMs := 10000 }
        "ch_1" 0).2).length ≤ MAX_SESSIONS :=
  ⟨by decide,
   createSession_bounded [] "203.0.113.7" 9000 "ses_1"
     { words := ["apple", "purple", "dance", "river", "sunset"],
       wordCount := 20, timeoutMs := 10000 }
     "ch_1" 0 (by decide)⟩

/-! ### C6 -/

/-- The rate-limit store after `n` consecutive `checkRateLimit` calls for
`ip`, all at the same instant `t` (no time passes between the calls). -/
def rateCalls (store : RateStore) (ip : String) (config : RateLimitConfig)
    (t : Int) : Nat → RateStore
  | 0 => store
  | n + 1 => (checkRateLimit (rateCalls store ip config t n) ip config t).2

theorem lookupKey_empty (k : String) : lookupKey k ([] : List (String × α)) = none := rfl

theorem checkRateLimit_fresh (store : RateStore) (ip : String)
    (config : RateLimitConfig) (t : Int)
    (hfresh : lookupKey ip store = none) (hmax1 : 1 ≤ config.maxTokens) :
    checkRateLimit store ip config t
      = ({ allowed := true, retryAfterMs := none },
         setKey ip ⟨config.maxTokens - 1, t⟩
           (setKey ip ⟨config.maxTokens, t⟩ store)) := by
  have hget : getBucket store ip config t
      = (⟨config.maxTokens, t⟩, setKey ip ⟨config.maxTokens, t⟩ store) := by
    unfold getBucket
    rw [hfresh]
  have hrefill : refillBucket ⟨config.maxTokens, t⟩ config t
      = ⟨config.maxTokens, t⟩ := by
    unfold refillBucket
    simp
  unfold checkRateLimit
  rw [hget]
  simp only [hrefill]
  rw [if_pos hmax1]

theorem checkRateLimit_present_same_time (store : RateStore) (ip : String)
    (config : RateLimitConfig) (t : Int) (q : ℚ)
    (hlk : lookupKey ip store = some ⟨q, t⟩) (hq : q ≤ config.maxTokens) :
    checkRateLimit store ip config t
      = if 1 ≤ q then
          ({ allowed := true, retryAfterMs := none }, setKey ip ⟨q - 1, t⟩ store)
        else
          ({ allowed := false,
             retryAfterMs := some ⌈((1 - q) / config.refillRate) * 1000⌉ },
           setKey ip ⟨q, t⟩ store) := by
  have hget : getBucket store ip config t = (⟨q, t⟩, store) := by
    unfold getBucket
    rw [hlk]
  have hrefill : refillBucket ⟨q, t⟩ config t = ⟨q, t⟩ := by
    unfold refillBucket
    simp [min_eq_right hq]
  unfold checkRateLimit
  rw [hget]
  simp only [hrefill]

theorem rateCalls_lookup (store : RateStore) (ip : String) (config : RateLimitConfig)
    (t : Int) (N : Nat) (hfresh : lookupKey ip store = none)
    (hmax : config.maxTokens = (N : ℚ)) (hN : 1 ≤ N) :
    ∀ k : Nat, 1 ≤ k → k ≤ N →
      lookupKey ip (rateCalls store ip config t k) = some ⟨(N : ℚ) - (k : ℚ), t⟩ := by
  intro k
  induction k with
  | zero => omega
  | succ k ih =>
    intro h1 hle
    rcases Nat.eq_zero_or_pos k with hk | hk
    · subst hk
      have hN1 : 1 ≤ config.maxTokens := by
        rw [hmax]
        exact_mod_cast hN
      have hcall := checkRateLimit_fresh store ip config t hfresh hN1
      show lookupKey ip (checkRateLimit (rateCalls store ip config t 0) ip config t).2 = _
      rw [show rateCalls store ip config t 0 = store from rfl, hcall]
      rw [lookupKey_setKey_self, hmax]
      norm_num
    · have hkk := ih (by omega) (by omega)
      have hq : (N : ℚ) - (k : ℚ) ≤ config.maxTokens := by
        rw [hmax]
        have hk0 : (0:ℚ) ≤ (k:ℚ) := by positivity
        linarith
      have hcall := checkRateLimit_present_same_time _ ip config t _ hkk hq
      have h1q : (1 : ℚ) ≤ (N : ℚ) - (k : ℚ) := by
        have hc : ((k : ℚ) + 1) ≤ (N : ℚ) := by exact_mod_cast hle
        linarith
      show lookupKey ip (checkRateLimit (rateCalls store ip config t k) ip config t).2 = _
      rw [hcall, if_pos h1q]
      rw [lookupKey_setKey_self]
      have harith : (N : ℚ) - (k : ℚ) - 1 = (N : ℚ) - ((k + 1 : Nat) : ℚ) := by
        push_cast
        ring
      rw [harith]

/-- C6: for a fresh identity against a limiter of capacity `N ≥ 1` with a
positive refill rate, `N` consecutive `checkRateLimit` calls made without
intervening time passing all return `allowed = true`; after them the
bucket holds exactly 0 tokens, and the `(N+1)`-th call returns
`allowed = false` with the positive retry-after
`⌈(1 − currentTokens) / refillRate × 1000⌉` milliseconds (the current
token count being 0). -/
theorem checkRateLimit_fresh_capacity (store : RateStore) (ip : String)
    (config : RateLimitConfig) (t : Int) (N : Nat)
    (hfresh : lookupKey ip store = none) (hmax : config.maxTokens = (N : ℚ))
    (hrate : 0 < config.refillRate) (hN : 1 ≤ N) :
    (∀ k : Nat, k < N →
      (checkRateLimit (rateCalls store ip config t k) ip config t).1.allowed = true) ∧
    lookupKey ip (rateCalls store ip config t N) = some ⟨0, t⟩ ∧
    (checkRateLimit (rateCalls store ip config t N) ip config t).1
      = { allowed := false,
          retryAfterMs := some ⌈((1 - (0 : ℚ)) / config.refillRate) * 1000⌉ } ∧
    0 < ⌈((1 - (0 : ℚ)) / config.refillRate) * 1000⌉ := by
  have hlookN : lookupKey ip (rateCalls store ip config t N) = some ⟨0, t⟩ := by
    have := rateCalls_lookup store ip config t N hfresh hmax hN N hN le_rfl
    simpa using this
  refine ⟨?_, hlookN, ?_, ?_⟩
  · intro k hk
    rcases Nat.eq_zero_or_pos k with hk0 | hk0
    · subst hk0
      have hN1 : 1 ≤ config.maxTokens := by
        rw [hmax]
        exact_mod_cast hN
      rw [show rateCalls store ip config t 0 = store from rfl,
        checkRateLimit_fresh store ip config t hfresh hN1]
    · have hkk := rateCalls_lookup store ip config t N hfresh hmax hN k hk0 (by omega)
      have hq : (N : ℚ) - (k : ℚ) ≤ config.maxTokens := by
        rw [hmax]
        have hk0q : (0:ℚ) ≤ (k:ℚ) := by positivity
        linarith
      have h1q : (1 : ℚ) ≤ (N : ℚ) - (k : ℚ) := by
        have hc : ((k : ℚ) + 1) ≤ (N : ℚ) := by exact_mod_cast hk
        linarith
      rw [checkRateLimit_present_same_time _ ip config t _ hkk hq, if_pos h1q]
  · have hq0 : (0 : ℚ) ≤ config.maxTokens := by
      rw [hmax]
      positivity
    rw [checkRateLimit_present_same_time _ ip config t _ hlookN hq0,
      if_neg (by norm_num)]
  · apply Int.ceil_pos.mpr
    have h1 : (0 : ℚ) < (1 - 0) / config.refillRate := by
      apply div_pos _ hrate
      norm_num
    have h2 : (0 : ℚ) < 1000 := by norm_num
    exact mul_pos h1 h2

/-- C6 witness: the `/challenge` limiter (capacity 10, refill 10/60 per
second) on a fresh identity. -/
theorem checkRateLimit_fresh_capacity_witness :
    lookupKey "203.0.113.7" ([] : RateStore) = none ∧
    RATE_LIMITS_challenge.maxTokens = ((10 : Nat) : ℚ) ∧
    0 < RATE_LIMITS_challenge.refillRate ∧
    (∀ k : Nat, k < 10 →
      (checkRateLimit (rateCalls [] "203.0.113.7" RATE_LIMITS_challenge 0 k)
        "203.0.113.7" RATE_LIMITS_challenge 0).1.allowed = true) ∧
    (checkRateLimit (rateCalls [] "203.0.113.7" RATE_LIMITS_challenge 0 10)
        "203.0.113.7" RATE_LIMITS_challenge 0).1.allowed = false := by
  have h := checkRateLimit_fresh_capacity [] "203.0.113.7" RATE_LIMITS_challenge 0 10
    rfl (by norm_num [RATE_LIMITS_challenge]) (by norm_num [RATE_LIMITS_challenge])
    (by norm_num)
  refine ⟨rfl, by norm_num [RATE_LIMITS_challenge], by norm_num [RATE_LIMITS_challenge],
    h.1, ?_⟩
  rw [h.2.2.1]

/-! ### C9 -/

/-- Buckets well-formed up to time `T`: token counts within
`[0, maxTokens]` and refill stamps not in the future. -/
def RateStoreWF (store : RateStore) (config : RateLimitConfig) (T : Int) : Prop :=
  ∀ e ∈ store, 0 ≤ e.2.tokens ∧ e.2.tokens ≤ config.maxTokens ∧ e.2.lastRefill ≤ T

/-- Run a sequence of `(identity, time)` rate-limit checks through the
store, left to right. -/
def runRateCalls (config : RateLimitConfig) (calls : List (String × Int))
    (store : RateStore) : RateStore :=
  calls.foldl (fun st c => (checkRateLimit st c.1 config c.2).2) store

/-- The call times are non-decreasing, starting no earlier than `T`. -/
def TimesMonotone : Int → List (String × Int) → Prop
  | _, [] => True
  | T, c :: rest => T ≤ c.2 ∧ TimesMonotone c.2 rest

/-- The time of the last call (or `T` if there is none). -/
def endTime : Int → List (String × Int) → Int
  | T, [] => T
  | _, c :: rest => endTime c.2 rest

theorem mem_setKey {α : Type} {e : String × α} {k : String} {v : α}
    {l : List (String × α)} (he : e ∈ setKey k v l) : e = (k, v) ∨ e ∈ l := by
  unfold setKey at he
  rcases List.mem_cons.mp he with h | h
  · exact Or.inl h
  · exact Or.inr (List.mem_of_mem_filter h)

theorem lookupKey_mem {α : Type} {l : List (String × α)} {k : String} {v : α}
    (h : lookupKey k l = some v) : (k, v) ∈ l := by
  unfold lookupKey at h
  rcases hf : l.find? (fun e => decide (e.1 = k)) with _ | e
  · rw [hf] at h
    cases h
  · rw [hf] at h
    have hm := List.mem_of_find?_eq_some hf
    have hp := List.find?_some hf
    simp at h
    simp at hp
    have he : e = (k, v) := by
      cases e with
      | mk a b =>
        simp only at hp h
        rw [hp] at hm ⊢
        rw [h]
    exact he ▸ hm

theorem refillBucket_lastRefill (b : TokenBucket) (config : RateLimitConfig)
    (now : Int) : (refillBucket b config now).lastRefill = now := rfl

theorem checkRateLimit_unfold (store : RateStore) (ip : String)
    (config : RateLimitConfig) (now : Int) :
    checkRateLimit store ip config now
      = if (refillBucket (getBucket store ip config now).1 config now).tokens ≥ 1 then
          ({ allowed := true, retryAfterMs := none },
           setKey ip
             ⟨(refillBucket (getBucket store ip config now).1 config now).tokens - 1, now⟩
             (getBucket store ip config now).2)
        else
          ({ allowed := false,
             retryAfterMs := some
               ⌈((1 - (refillBucket (getBucket store ip config now).1 config now).tokens)
                   / config.refillRate) * 1000⌉ },
           setKey ip (refillBucket (getBucket store ip config now).1 config now)
             (getBucket store ip config now).2) := rfl

theorem refillBucket_tokens_bounds (b : TokenBucket) (config : RateLimitConfig)
    (now : Int) (hrate : 0 ≤ config.refillRate) (hmax : 0 ≤ config.maxTokens)
    (h0 : 0 ≤ b.tokens) (hlast : b.lastRefill ≤ now) :
    0 ≤ (refillBucket b config now).tokens ∧
    (refillBucket b config now).tokens ≤ config.maxTokens := by
  unfold refillBucket
  constructor
  · apply le_min hmax
    have hadd : 0 ≤ ((now - b.lastRefill : Int) : ℚ) / 1000 * config.refillRate := by
      apply mul_nonneg _ hrate
      apply div_nonneg _ (by norm_num)
      exact_mod_cast Int.sub_nonneg.mpr hlast
    linarith
  · exact min_le_left _ _

theorem checkRateLimit_preserves_WF (store : RateStore) (ip : String)
    (config : RateLimitConfig) (now T : Int)
    (hrate : 0 ≤ config.refillRate) (hmax : 0 ≤ config.maxTokens)
    (hwf : RateStoreWF store config T) (hT : T ≤ now) :
    RateStoreWF (checkRateLimit store ip config now).2 config now := by
  have hstore_now : RateStoreWF store config now := by
    intro e he
    exact ⟨(hwf e he).1, (hwf e he).2.1, le_trans (hwf e he).2.2 hT⟩
  have hset : ∀ (b' : TokenBucket) (st : RateStore),
      0 ≤ b'.tokens → b'.tokens ≤ config.maxTokens → b'.lastRefill ≤ now →
      RateStoreWF st config now → RateStoreWF (setKey ip b' st) config now := by
    intro b' st h1 h2 h3 hst e he
    rcases mem_setKey he with h | h
    · subst h
      exact ⟨h1, h2, h3⟩
    · exact hst e h
  have hg : 0 ≤ (getBucket store ip config now).1.tokens ∧
      (getBucket store ip config now).1.lastRefill ≤ now ∧
      RateStoreWF (getBucket store ip config now).2 config now := by
    rcases hlk : lookupKey ip store with _ | b0
    · have hget : getBucket store ip config now
          = (⟨config.maxTokens, now⟩, setKey ip ⟨config.maxTokens, now⟩ store) := by
        unfold getBucket
        rw [hlk]
      rw [hget]
      exact ⟨hmax, le_rfl, hset _ _ hmax le_rfl le_rfl hstore_now⟩
    · have hget : getBucket store ip config now = (b0, store) := by
        unfold getBucket
        rw [hlk]
      have hb0 := hwf (ip, b0) (lookupKey_mem hlk)
      rw [hget]
      exact ⟨hb0.1, le_trans hb0.2.2 hT, hstore_now⟩
  obtain ⟨hg1, hg2, hg3⟩ := hg
  have hbounds := refillBucket_tokens_bounds (getBucket store ip config now).1 config now
    hrate hmax hg1 hg2
  rw [checkRateLimit_unfold]
  split_ifs with hcond
  · dsimp only
    refine hset _ _ ?_ ?_ ?_ hg3
    · show 0 ≤ (refillBucket (getBucket store ip config now).1 config now).tokens - 1
      linarith
    · show (refillBucket (getBucket store ip config now).1 config now).tokens - 1
          ≤ config.maxTokens
      have := hbounds.2
      linarith
    · show (now : Int) ≤ now
      exact le_rfl
  · dsimp only
    refine hset _ _ hbounds.1 hbounds.2 ?_ hg3
    rw [refillBucket_lastRefill]

theorem runRateCalls_preserves_WF (config : RateLimitConfig)
    (hrate : 0 ≤ config.refillRate) (hmax : 0 ≤ config.maxTokens) :
    ∀ (calls : List (String × Int)) (store : RateStore) (T : Int),
      RateStoreWF store config T → TimesMonotone T calls →
      RateStoreWF (runRateCalls config calls store) config (endTime T calls) := by
  intro calls
  induction calls with
  | nil =>
    intro store T hwf _
    simpa [runRateCalls, endTime] using hwf
  | cons c rest ih =>
    intro store T hwf hmono
    obtain ⟨h1, h2⟩ := hmono
    have hstep := checkRateLimit_preserves_WF store c.1 config c.2 T hrate hmax hwf h1
    simpa [runRateCalls, endTime] using
      ih (checkRateLimit store c.1 config c.2).2 c.2 hstep h2

/-- C9: the token bucket stays within bounds.  With a non-negative refill
rate and capacity: (1) along every sequence of `checkRateLimit` calls at
non-decreasing times, every bucket's token count stays in
`[0, maxTokens]`; (2) a refill adds `elapsed/1000 × refillRate` tokens,
capped at capacity, and stamps the refill time; (3) every allowed
request decrements the (refilled) count by exactly one. -/
theorem checkRateLimit_bucket_invariants (config : RateLimitConfig)
    (hrate : 0 ≤ config.refillRate) (hmax : 0 ≤ config.maxTokens) :
    (∀ (calls : List (String × Int)) (store : RateStore) (T : Int),
      RateStoreWF store config T → TimesMonotone T calls →
      RateStoreWF (runRateCalls config calls store) config (endTime T calls)) ∧
    (∀ (b : TokenBucket) (now : Int),
      (refillBucket b config now).tokens
        = min config.maxTokens
            (b.tokens + ((now - b.lastRefill : Int) : ℚ) / 1000 * config.refillRate) ∧
      (refillBucket b config now).lastRefill = now) ∧
    (∀ (store : RateStore) (ip : String) (now : Int),
      (checkRateLimit store ip config now).1.allowed = true →
      lookupKey ip (checkRateLimit store ip config now).2
        = some ⟨(refillBucket (getBucket store ip config now).1 config now).tokens - 1,
            now⟩) := by
  refine ⟨runRateCalls_preserves_WF config hrate hmax, fun b now => ⟨rfl, rfl⟩, ?_⟩
  intro store ip now hallowed
  rw [checkRateLimit_unfold] at hallowed ⊢
  split_ifs at hallowed ⊢ with hcond
  exact lookupKey_setKey_self ip _ _

/-- C9 witness: the `/auth/submit` limiter configuration (capacity 30,
refill 30/60 per second) satisfies the hypotheses. -/
theorem checkRateLimit_bucket_invariants_witness :
    0 ≤ RATE_LIMITS_submit.refillRate ∧ 0 ≤ RATE_LIMITS_submit.maxTokens ∧
    (∀ (b : TokenBucket) (now : Int),
      (refillBucket b RATE_LIMITS_submit now).tokens
        = min RATE_LIMITS_submit.maxTokens
            (b.tokens + ((now - b.lastRefill : Int) : ℚ) / 1000
              * RATE_LIMITS_submit.refillRate) ∧
      (refillBucket b RATE_LIMITS_submit now).lastRefill = now) :=
  ⟨by norm_num [RATE_LIMITS_submit], by norm_num [RATE_LIMITS_submit],
   (checkRateLimit_bucket_invariants RATE_LIMITS_submit
     (by norm_num [RATE_LIMITS_submit]) (by norm_num [RATE_LIMITS_submit])).2.1⟩

end RCaptcha
